import Mathlib

/-!
Verification of the cart repository layer of `sqlcpp-demo`.

The development shallowly embeds:
* the domain model (`internal/domain`): `Money`, `CartItem`, `Cart`;
* the generated query boundary (`internal/db/queries/cart.sql`): the three
  SQL statements `GetCart`, `AddItem` (upsert) and `DeleteItem`, modelled as
  pure functions over an in-memory table of rows (`List CartRow`);
* the repository adapter (`internal/repository/cart_repository.go`):
  `GetCart`, `AddItem`, `DeleteItem` and the two row-mapping helpers;
* the transaction helper (`internal/repository/tx.go`): `withTx`.

Go errors built with `errors.New` / `fmt.Errorf("...: %w", err)` /
`errors.Join` are modelled by the inductive `GoErr`; `pgx.ErrTxClosed` is the
distinguished constructor `GoErr.txClosed` and `errors.Is(e, pgx.ErrTxClosed)`
is the recursive scan `GoErr.hasTxClosed`.

Repository operations additionally record the list of queries issued to the
query boundary (`Query`) and return the table state after the call, so that
statements like "no query is issued and the store is unchanged" are direct
equations.
-/

/-- `uuid.UUID`, modelled as a natural number; `uuid.Nil` is `0`. -/
abbrev UUID := Nat

/-- `uuid.Nil`, the zero UUID. -/
def UUID.nil : UUID := 0

/-- `currency.Unit` from `golang.org/x/text/currency`: carries its ISO code,
`code` plays the role of the Go value's `String()` method. -/
structure CurrencyUnit where
  code : String
deriving DecidableEq, Repr

/-- `domain.Money`: an amount (decimal, modelled as an integer of minor
units) and a currency. -/
structure Money where
  Amount : Int
  Currency : CurrencyUnit
deriving DecidableEq, Repr

/-- `domain.CartItem`. Timestamps are modelled as naturals. -/
structure CartItem where
  ProductID : UUID
  Price : Money
  CreatedAt : Nat
deriving DecidableEq, Repr

/-- `domain.Cart`. -/
structure Cart where
  OwnerID : String
  Items : List CartItem
deriving DecidableEq, Repr

/-- Go errors as far as this layer builds and inspects them:
`msg` is `errors.New`/`fmt.Errorf` without `%w`, `wrap p e` is
`fmt.Errorf("<p>: %w", e)`, `join` is `errors.Join`, and `txClosed` is the
sentinel `pgx.ErrTxClosed`. -/
inductive GoErr where
  | msg (s : String)
  | wrap (p : String) (inner : GoErr)
  | join (a b : GoErr)
  | txClosed
deriving DecidableEq, Repr

/-- `errors.Is(e, pgx.ErrTxClosed)`: scans the wrap/join chain for the
sentinel. -/
def GoErr.hasTxClosed : GoErr → Bool
  | .msg _ => false
  | .wrap _ inner => inner.hasTxClosed
  | .join a b => a.hasTxClosed || b.hasTxClosed
  | .txClosed => true

/-- A row of the `cart_items` table (schema: composite key
`(owner_id, product_id)`, price fields, server-assigned `created_at`). -/
structure CartRow where
  owner_id : String
  product_id : UUID
  price_amount : Int
  price_currency : String
  created_at : Nat
deriving DecidableEq, Repr

/-- `db.GetCartRow`: what the generated `GetCart` query returns per row
(`SELECT product_id, price_amount, price_currency, created_at`). -/
structure GetCartRow where
  ProductID : UUID
  PriceAmount : Int
  PriceCurrency : String
  CreatedAt : Nat
deriving DecidableEq, Repr

/-- `db.AddItemParams`. -/
structure AddItemParams where
  OwnerID : String
  ProductID : UUID
  PriceAmount : Int
  PriceCurrency : String
deriving DecidableEq, Repr

/-- `db.DeleteItemParams`. -/
structure DeleteItemParams where
  OwnerID : String
  ProductID : UUID
deriving DecidableEq, Repr

/-- A call to one of the three generated query functions. -/
inductive Query where
  | getCart (ownerID : String)
  | addItem (p : AddItemParams)
  | deleteItem (p : DeleteItemParams)
deriving DecidableEq, Repr

/-- Does row `r` match the composite key `(o, p)`
(`WHERE owner_id = $1 AND product_id = $2`)? -/
def rowKeyIs (o : String) (p : UUID) (r : CartRow) : Bool :=
  r.owner_id == o && r.product_id == p

/-- The composite primary key of a row. -/
def keyOf (r : CartRow) : String × UUID := (r.owner_id, r.product_id)

/-- Table well-formedness: the composite primary key `(owner_id,
product_id)` is unique, as enforced by the schema (required for
`ON CONFLICT (owner_id, product_id)` to be well defined). -/
def storeWF (s : List CartRow) : Prop := (s.map keyOf).Nodup

instance (s : List CartRow) : Decidable (storeWF s) := by
  unfold storeWF; infer_instance

/-- The `GetCart` SQL statement: all rows of the owner, projected to the
selected columns. -/
def sqlGetCart (store : List CartRow) (ownerID : String) : List GetCartRow :=
  (store.filter (fun r => r.owner_id == ownerID)).map
    (fun r => ⟨r.product_id, r.price_amount, r.price_currency, r.created_at⟩)

/-- The row produced by `updRow` on a key match: only the price fields are
replaced (`DO UPDATE SET price_amount = ..., price_currency = ...`). -/
def updRow (o : String) (p : UUID) (amt : Int) (cur : String) (r : CartRow) : CartRow :=
  if rowKeyIs o p r then
    { r with price_amount := amt, price_currency := cur }
  else r

/-- The `AddItem` SQL statement: `INSERT ... ON CONFLICT (owner_id,
product_id) DO UPDATE SET price_amount = EXCLUDED.price_amount,
price_currency = EXCLUDED.price_currency`. `now` is the server-assigned
`created_at` used on a fresh insert. -/
def sqlAddItem (store : List CartRow) (p : AddItemParams) (now : Nat) : List CartRow :=
  if store.any (rowKeyIs p.OwnerID p.ProductID) then
    store.map (updRow p.OwnerID p.ProductID p.PriceAmount p.PriceCurrency)
  else
    store ++ [⟨p.OwnerID, p.ProductID, p.PriceAmount, p.PriceCurrency, now⟩]

/-- The `DeleteItem` SQL statement (`:execrows`): removes every row matching
the key and reports the number of affected rows. -/
def sqlDeleteItem (store : List CartRow) (p : DeleteItemParams) : List CartRow × Nat :=
  (store.filter (fun r => !(rowKeyIs p.OwnerID p.ProductID r)),
   (store.filter (rowKeyIs p.OwnerID p.ProductID)).length)

/-- `mapGetCartRowToDomain`: parses the stored currency code (via the
injected `parse`, standing for `currency.ParseISO`) and builds the domain
item; a parse failure is wrapped as
`fmt.Errorf("currency[%s] is not valid: %w", row.PriceCurrency, err)`. -/
def mapGetCartRowToDomain (parse : String → Except GoErr CurrencyUnit)
    (row : GetCartRow) : Except GoErr CartItem :=
  match parse row.PriceCurrency with
  | .error e =>
      .error (.wrap ("currency[" ++ row.PriceCurrency ++ "] is not valid") e)
  | .ok c => .ok ⟨row.ProductID, ⟨row.PriceAmount, c⟩, row.CreatedAt⟩

/-- `mapGetCartRowsToDomain`: maps each row in order, aborting at the first
failure with the error wrapped as `fmt.Errorf("mapGetCartRowToDomain: %w",
err)`. -/
def mapGetCartRowsToDomain (parse : String → Except GoErr CurrencyUnit) :
    List GetCartRow → Except GoErr (List CartItem)
  | [] => .ok []
  | row :: rest =>
    match mapGetCartRowToDomain parse row with
    | .error e => .error (.wrap "mapGetCartRowToDomain" e)
    | .ok item =>
      match mapGetCartRowsToDomain parse rest with
      | .error e => .error e
      | .ok items => .ok (item :: items)

/-- Result of `cartRepository.GetCart`: the returned cart (the zero value
`⟨"", []⟩` on error, as Go returns the zero `domain.Cart`), the returned
error, the table after the call, and the queries issued. -/
structure GetCartOut where
  cart : Cart
  err : Option GoErr
  store : List CartRow
  queries : List Query
deriving DecidableEq, Repr

/-- Result of `cartRepository.AddItem`. -/
structure AddItemOut where
  err : Option GoErr
  store : List CartRow
  queries : List Query
deriving DecidableEq, Repr

/-- Result of `cartRepository.DeleteItem`. -/
structure DeleteItemOut where
  deleted : Bool
  err : Option GoErr
  store : List CartRow
  queries : List Query
deriving DecidableEq, Repr

namespace cartRepository

/-- `cartRepository.GetCart`: rejects an empty owner before any query,
otherwise runs the generated query and maps the rows, wrapping a mapping
failure as `fmt.Errorf("mapGetCartRowsToDomain: %w", err)`. The query
boundary itself is deterministic in this model, so the
`fmt.Errorf("q.GetCart: %w", err)` path has no counterpart. -/
def GetCart (parse : String → Except GoErr CurrencyUnit)
    (store : List CartRow) (ownerID : String) : GetCartOut :=
  if ownerID = "" then
    ⟨⟨"", []⟩, some (.msg "ownerID is empty"), store, []⟩
  else
    match mapGetCartRowsToDomain parse (sqlGetCart store ownerID) with
    | .error e =>
        ⟨⟨"", []⟩, some (.wrap "mapGetCartRowsToDomain" e), store,
         [.getCart ownerID]⟩
    | .ok items => ⟨⟨ownerID, items⟩, none, store, [.getCart ownerID]⟩

/-- `cartRepository.AddItem`: rejects an empty owner before any query and
otherwise issues the upsert with the item's fields; `now` is the
server-assigned creation timestamp used if the insert arm is taken. There
is no validation of `item.ProductID` in the source. -/
def AddItem (store : List CartRow) (ownerID : String) (item : CartItem)
    (now : Nat) : AddItemOut :=
  if ownerID = "" then
    ⟨some (.msg "ownerID is empty"), store, []⟩
  else
    let p : AddItemParams :=
      ⟨ownerID, item.ProductID, item.Price.Amount, item.Price.Currency.code⟩
    ⟨none, sqlAddItem store p now, [.addItem p]⟩

/-- `cartRepository.DeleteItem`: rejects an empty owner, then a nil product
identifier, before any query; otherwise issues the delete and returns
whether `rowsAffected > 0`. -/
def DeleteItem (store : List CartRow) (ownerID : String) (productID : UUID) :
    DeleteItemOut :=
  if ownerID = "" then
    ⟨false, some (.msg "ownerID is empty"), store, []⟩
  else if productID = UUID.nil then
    ⟨false, some (.msg "productID is empty"), store, []⟩
  else
    let res := sqlDeleteItem store ⟨ownerID, productID⟩
    ⟨decide (0 < res.2), none, res.1, [.deleteItem ⟨ownerID, productID⟩]⟩

end cartRepository

/-- One observable transaction event of `withTx`. `commitOk` is a commit
that succeeded, `commitFailed` a commit attempt that returned an error,
`rollbackCalled` a call to `tx.Rollback`. -/
inductive TxEvent where
  | beginOk
  | beginFailed
  | commitOk
  | commitFailed
  | rollbackCalled
deriving DecidableEq, Repr

/-- Outcomes of the effectful steps `withTx` may take when given a non-nil
pool: whether `pool.Begin` fails, what the unit of work returns against the
transaction-bound queries, whether `tx.Commit` fails, and what `tx.Rollback`
returns when called. -/
structure TxOutcomes (T : Type) where
  beginResult : Option GoErr
  fnTxResult : Except GoErr T
  commitResult : Option GoErr
  rollbackResult : Option GoErr

/-- What `withTx` produces: the returned value/error and the trace of
transaction events. -/
structure WithTxOut (T : Type) where
  result : Except GoErr T
  events : List TxEvent

/-- The deferred rollback handler of `withTx`: given the error `e` being
returned (`txErr`) it calls `tx.Rollback`; a rollback error that is not
`pgx.ErrTxClosed` is joined onto `e` as
`errors.Join(txErr, fmt.Errorf("tx.Rollback: %w", rollbackErr))`. -/
def rollbackOnError (e : GoErr) (rollbackResult : Option GoErr) : GoErr :=
  match rollbackResult with
  | none => e
  | some re => if re.hasTxClosed then e else .join e (.wrap "tx.Rollback" re)

/-- `withTx` from `internal/repository/tx.go`. `pool = none` models a nil
`*pgxpool.Pool` (the repository already holds a transaction handle), in
which case the unit of work's outcome against the existing queries is
`fnResult` and it is returned as-is. `pool = some env` models a fresh pool:
begin, run the unit of work against transaction-bound queries
(`env.fnTxResult`), commit on success; the deferred handler rolls back on
any error exit. -/
def withTx {T : Type} (pool : Option (TxOutcomes T))
    (fnResult : Except GoErr T) : WithTxOut T :=
  match pool with
  | none => ⟨fnResult, []⟩
  | some env =>
    match env.beginResult with
    | some e => ⟨.error e, [.beginFailed]⟩
    | none =>
      match env.fnTxResult with
      | .error e =>
          ⟨.error (rollbackOnError e env.rollbackResult),
           [.beginOk, .rollbackCalled]⟩
      | .ok v =>
        match env.commitResult with
        | some e =>
            ⟨.error (rollbackOnError e env.rollbackResult),
             [.beginOk, .commitFailed, .rollbackCalled]⟩
        | none => ⟨.ok v, [.beginOk, .commitOk]⟩

/-- Is an `Except` value a success? -/
def exceptIsOk {ε α : Type} : Except ε α → Bool
  | .ok _ => true
  | .error _ => false

/-! ### Shared fixtures for concrete witnesses -/

/-- A concrete stand-in for `currency.ParseISO` used in witnesses: accepts
`"USD"` and `"EUR"`, rejects everything else. -/
def parseUSD (s : String) : Except GoErr CurrencyUnit :=
  if s = "USD" || s = "EUR" then .ok ⟨s⟩
  else .error (.msg ("currency " ++ s ++ ": tag is not a recognized currency"))

/-- A one-row demo table. -/
def demoStore : List CartRow := [⟨"alice", 1, 5, "USD", 10⟩]

/-! ### Claim theorems -/

/-- C1: `GetCart`, `AddItem` and `DeleteItem` called with an empty owner
identifier all return the validation error `"ownerID is empty"`, issue no
query to the query boundary, and leave the store unchanged. -/
theorem empty_owner_always_rejected
    (parse : String → Except GoErr CurrencyUnit) (store : List CartRow)
    (item : CartItem) (now : Nat) (productID : UUID) :
    cartRepository.GetCart parse store "" =
      ⟨⟨"", []⟩, some (.msg "ownerID is empty"), store, []⟩
    ∧ cartRepository.AddItem store "" item now =
      ⟨some (.msg "ownerID is empty"), store, []⟩
    ∧ cartRepository.DeleteItem store "" productID =
      ⟨false, some (.msg "ownerID is empty"), store, []⟩ := by
  refine ⟨?_, ?_, ?_⟩ <;>
    simp [cartRepository.GetCart, cartRepository.AddItem,
      cartRepository.DeleteItem]

/-- C2 counterexample: `AddItem` with a non-empty owner and a nil product
identifier does not fail with a validation error — it issues the upsert
query with the nil product identifier and returns no error, so the claim
that it fails before any query is issued is false on the code. -/
theorem addItem_nil_product_not_validated :
    cartRepository.AddItem [] "alice" ⟨UUID.nil, ⟨5, ⟨"USD"⟩⟩, 0⟩ 7 =
      ⟨none, [⟨"alice", UUID.nil, 5, "USD", 7⟩],
       [.addItem ⟨"alice", UUID.nil, 5, "USD"⟩]⟩ := by
  decide

/-- C2 (amended): `AddItem` validates only the owner identifier. For every
non-empty owner and every item — a nil product identifier included — no
validation error is produced and the upsert query is issued with exactly
the item's fields. -/
theorem addItem_validates_only_owner (store : List CartRow) (ownerID : String)
    (item : CartItem) (now : Nat) (how : ownerID ≠ "") :
    cartRepository.AddItem store ownerID item now =
      ⟨none,
       sqlAddItem store
         ⟨ownerID, item.ProductID, item.Price.Amount, item.Price.Currency.code⟩
         now,
       [.addItem
         ⟨ownerID, item.ProductID, item.Price.Amount,
          item.Price.Currency.code⟩]⟩ := by
  simp [cartRepository.AddItem, how]

/-- C2 (amended) witness: the amended theorem evaluated at a nil product
identifier with a non-empty owner. -/
theorem addItem_validates_only_owner_witness :
    cartRepository.AddItem [] "alice" ⟨UUID.nil, ⟨5, ⟨"USD"⟩⟩, 0⟩ 7 =
      ⟨none,
       sqlAddItem [] ⟨"alice", UUID.nil, 5, "USD"⟩ 7,
       [.addItem ⟨"alice", UUID.nil, 5, "USD"⟩]⟩ :=
  addItem_validates_only_owner [] "alice" ⟨UUID.nil, ⟨5, ⟨"USD"⟩⟩, 0⟩ 7
    (by decide)

/-- C9: with a nil pool, `withTx` returns exactly the unit of work's result
against the existing query interface: no begin, no commit, no rollback, no
transaction event at all. -/
theorem withTx_nil_pool_passthrough {T : Type} (fnResult : Except GoErr T) :
    withTx none fnResult = ⟨fnResult, []⟩ := rfl

/-- C10: `DeleteItem` with a non-empty owner and a nil product identifier
returns `(false, "productID is empty")` with no query issued and the store
unchanged. -/
theorem deleteItem_nil_product_rejected (store : List CartRow)
    (ownerID : String) (how : ownerID ≠ "") :
    cartRepository.DeleteItem store ownerID UUID.nil =
      ⟨false, some (.msg "productID is empty"), store, []⟩ := by
  simp [cartRepository.DeleteItem, how, UUID.nil]

/-- C10 witness: the nil-product rejection evaluated at owner `"alice"`. -/
theorem deleteItem_nil_product_rejected_witness :
    cartRepository.DeleteItem demoStore "alice" UUID.nil =
      ⟨false, some (.msg "productID is empty"), demoStore, []⟩ :=
  deleteItem_nil_product_rejected demoStore "alice" (by decide)

/-- C4: with a valid key, `DeleteItem` never errors, returns `true` exactly
when a matching row existed (all matching rows are removed, every other row
is kept verbatim), and a second delete of the same key returns `false`
without error. -/
theorem deleteItem_boolean_idempotent (store : List CartRow)
    (ownerID : String) (productID : UUID)
    (how : ownerID ≠ "") (hp : productID ≠ UUID.nil) :
    (cartRepository.DeleteItem store ownerID productID).err = none
    ∧ ((cartRepository.DeleteItem store ownerID productID).deleted = true
        ↔ store.filter (rowKeyIs ownerID productID) ≠ [])
    ∧ (cartRepository.DeleteItem store ownerID productID).store =
        store.filter (fun r => !(rowKeyIs ownerID productID r))
    ∧ (cartRepository.DeleteItem
        (cartRepository.DeleteItem store ownerID productID).store
        ownerID productID).deleted = false
    ∧ (cartRepository.DeleteItem
        (cartRepository.DeleteItem store ownerID productID).store
        ownerID productID).err = none := by
  refine ⟨?_, ?_, ?_, ?_, ?_⟩ <;>
    simp [cartRepository.DeleteItem, how, hp, sqlDeleteItem,
      List.filter_filter, List.length_pos, ← List.filter_eq_nil_iff]

/-- C4 witness: deleting the one stored row of `demoStore` succeeds and the
repeat delete reports `false`. -/
theorem deleteItem_boolean_idempotent_witness :
    (cartRepository.DeleteItem demoStore "alice" 1).err = none
    ∧ ((cartRepository.DeleteItem demoStore "alice" 1).deleted = true
        ↔ demoStore.filter (rowKeyIs "alice" 1) ≠ [])
    ∧ (cartRepository.DeleteItem demoStore "alice" 1).store =
        demoStore.filter (fun r => !(rowKeyIs "alice" 1 r))
    ∧ (cartRepository.DeleteItem
        (cartRepository.DeleteItem demoStore "alice" 1).store
        "alice" 1).deleted = false
    ∧ (cartRepository.DeleteItem
        (cartRepository.DeleteItem demoStore "alice" 1).store
        "alice" 1).err = none :=
  deleteItem_boolean_idempotent demoStore "alice" 1 (by decide) (by decide)

/-- C6: for a non-empty owner, `GetCart` on a store with no rows for that
owner returns the cart `⟨owner, []⟩` with no error, and in general on a
successful row mapping it returns exactly `⟨owner, mapped items⟩`. -/
theorem getCart_success_shape (parse : String → Except GoErr CurrencyUnit)
    (store : List CartRow) (ownerID : String) (how : ownerID ≠ "") :
    (sqlGetCart store ownerID = [] →
       cartRepository.GetCart parse store ownerID =
         ⟨⟨ownerID, []⟩, none, store, [.getCart ownerID]⟩)
    ∧ ∀ items,
        mapGetCartRowsToDomain parse (sqlGetCart store ownerID) = .ok items →
        cartRepository.GetCart parse store ownerID =
          ⟨⟨ownerID, items⟩, none, store, [.getCart ownerID]⟩ := by
  constructor
  · intro h
    simp [cartRepository.GetCart, how, h, mapGetCartRowsToDomain]
  · intro items h
    simp [cartRepository.GetCart, how, h]

/-- C6 witness: retrieving the cart of an owner with no stored rows yields
the empty cart for that owner. -/
theorem getCart_success_shape_witness :
    cartRepository.GetCart parseUSD [] "alice" =
      ⟨⟨"alice", []⟩, none, [], [.getCart "alice"]⟩ :=
  (getCart_success_shape parseUSD [] "alice" (by decide)).1 rfl

/-- The first row of the list whose stored currency code fails to parse:
the row at which the mapping loop of `mapGetCartRowsToDomain` aborts. -/
def firstFailingRow (parse : String → Except GoErr CurrencyUnit) :
    List GetCartRow → Option GetCartRow
  | [] => none
  | r :: rest =>
    match parse r.PriceCurrency with
    | .error _ => some r
    | .ok _ => firstFailingRow parse rest

/-- If some row fails to parse, the scan of `firstFailingRow` finds one. -/
theorem firstFailingRow_isSome_of_bad
    (parse : String → Except GoErr CurrencyUnit) (rows : List GetCartRow)
    (hbad : ∃ row ∈ rows, exceptIsOk (parse row.PriceCurrency) = false) :
    ∃ r, firstFailingRow parse rows = some r := by
  induction rows with
  | nil => simp at hbad
  | cons head rest ih =>
    cases hph : parse head.PriceCurrency with
    | error e => exact ⟨head, by simp [firstFailingRow, hph]⟩
    | ok c =>
      obtain ⟨row, hmem, hrow⟩ := hbad
      rcases List.mem_cons.mp hmem with hhd | htl
      · subst hhd
        simp [hph, exceptIsOk] at hrow
      · obtain ⟨r, hr⟩ := ih ⟨row, htl, hrow⟩
        exact ⟨r, by simp [firstFailingRow, hph, hr]⟩

/-- The row found by `firstFailingRow` is a member of the list and its
currency really fails to parse. -/
theorem firstFailingRow_mem_error
    (parse : String → Except GoErr CurrencyUnit) (rows : List GetCartRow)
    (r : GetCartRow) (hr : firstFailingRow parse rows = some r) :
    r ∈ rows ∧ ∃ e, parse r.PriceCurrency = .error e := by
  induction rows with
  | nil => simp [firstFailingRow] at hr
  | cons head rest ih =>
    cases hph : parse head.PriceCurrency with
    | error e =>
      simp only [firstFailingRow, hph] at hr
      cases hr
      exact ⟨List.mem_cons_self _ _, e, hph⟩
    | ok c =>
      simp only [firstFailingRow, hph] at hr
      obtain ⟨hmem, he⟩ := ih hr
      exact ⟨List.mem_cons_of_mem _ hmem, he⟩

/-- The mapping loop aborts at the first failing row, returning exactly the
per-row error wrapped once as `mapGetCartRowToDomain: ...`. -/
theorem mapGetCartRowsToDomain_error_at_first_failure
    (parse : String → Except GoErr CurrencyUnit) (rows : List GetCartRow)
    (r : GetCartRow) (e : GoErr)
    (hr : firstFailingRow parse rows = some r)
    (he : parse r.PriceCurrency = .error e) :
    mapGetCartRowsToDomain parse rows =
      .error (.wrap "mapGetCartRowToDomain"
        (.wrap ("currency[" ++ r.PriceCurrency ++ "] is not valid") e)) := by
  induction rows with
  | nil => simp [firstFailingRow] at hr
  | cons head rest ih =>
    cases hph : parse head.PriceCurrency with
    | error e2 =>
      simp only [firstFailingRow, hph] at hr
      cases hr
      rw [hph] at he
      cases he
      simp [mapGetCartRowsToDomain, mapGetCartRowToDomain, hph]
    | ok c =>
      simp only [firstFailingRow, hph] at hr
      have hrest := ih hr
      simp [mapGetCartRowsToDomain, mapGetCartRowToDomain, hph, hrest]

/-- C5: if any stored row for the owner carries a currency code that fails
to parse, `GetCart` returns no cart (the zero cart, no partial item
collection) and a wrapped error naming the offending code of the row the
scan aborted at; the store is read-only and exactly one query was
issued. -/
theorem getCart_aborts_on_bad_currency
    (parse : String → Except GoErr CurrencyUnit) (store : List CartRow)
    (ownerID : String) (how : ownerID ≠ "")
    (hbad : ∃ row ∈ sqlGetCart store ownerID,
              exceptIsOk (parse row.PriceCurrency) = false) :
    ∃ r e, firstFailingRow parse (sqlGetCart store ownerID) = some r
      ∧ r ∈ sqlGetCart store ownerID
      ∧ parse r.PriceCurrency = .error e
      ∧ cartRepository.GetCart parse store ownerID =
          ⟨⟨"", []⟩,
           some (.wrap "mapGetCartRowsToDomain"
             (.wrap "mapGetCartRowToDomain"
               (.wrap ("currency[" ++ r.PriceCurrency ++ "] is not valid")
                 e))),
           store, [.getCart ownerID]⟩ := by
  obtain ⟨r, hr⟩ := firstFailingRow_isSome_of_bad parse _ hbad
  obtain ⟨hmem, e, he⟩ := firstFailingRow_mem_error parse _ r hr
  have hmap := mapGetCartRowsToDomain_error_at_first_failure parse _ r e hr he
  exact ⟨r, e, hr, hmem, he,
    by simp [cartRepository.GetCart, how, hmap]⟩

/-- A table holding one row whose currency code `"XXX"` is not ISO. -/
def badCurrencyStore : List CartRow := [⟨"alice", 1, 5, "XXX", 10⟩]

/-- C5 witness: retrieval over `badCurrencyStore` aborts with the wrapped
currency error. -/
theorem getCart_aborts_on_bad_currency_witness :
    ("alice" : String) ≠ ""
    ∧ (∃ row ∈ sqlGetCart badCurrencyStore "alice",
         exceptIsOk (parseUSD row.PriceCurrency) = false)
    ∧ ∃ r e, firstFailingRow parseUSD (sqlGetCart badCurrencyStore "alice") =
          some r
        ∧ r ∈ sqlGetCart badCurrencyStore "alice"
        ∧ parseUSD r.PriceCurrency = .error e
        ∧ cartRepository.GetCart parseUSD badCurrencyStore "alice" =
            ⟨⟨"", []⟩,
             some (.wrap "mapGetCartRowsToDomain"
               (.wrap "mapGetCartRowToDomain"
                 (.wrap ("currency[" ++ r.PriceCurrency ++ "] is not valid")
                   e))),
             badCurrencyStore, [.getCart "alice"]⟩ :=
  ⟨by decide, by decide,
   getCart_aborts_on_bad_currency parseUSD badCurrencyStore "alice"
     (by decide) (by decide)⟩

/-- Does `outer` have `inner` somewhere in its wrap/join tree (the model of
`errors.Is` for a specific error value)? -/
def GoErr.contains (outer inner : GoErr) : Bool :=
  (outer == inner) ||
  match outer with
  | .wrap _ i => i.contains inner
  | .join a b => a.contains inner || b.contains inner
  | _ => false

/-- An error always contains itself. -/
theorem GoErr.contains_self (e : GoErr) : e.contains e = true := by
  cases e <;> simp [GoErr.contains]

/-- C7: for every transaction `withTx` itself opens (non-nil pool and a
successful begin), exactly one of a successful commit or a rollback call
happens — one commit and no rollback exactly when the unit of work and the
commit both succeed, otherwise no commit and exactly one rollback. -/
theorem withTx_exactly_one_commit_or_rollback {T : Type} (env : TxOutcomes T)
    (fnResult : Except GoErr T) (hbegin : env.beginResult = none) :
    (withTx (some env) fnResult).events.count TxEvent.commitOk
      + (withTx (some env) fnResult).events.count TxEvent.rollbackCalled = 1
    ∧ ((withTx (some env) fnResult).events.count TxEvent.commitOk = 1
        ↔ exceptIsOk env.fnTxResult = true ∧ env.commitResult = none) := by
  obtain ⟨b, f, c, rb⟩ := env
  simp only at hbegin
  subst hbegin
  cases f <;> cases c <;>
    simp [withTx, exceptIsOk, List.count_cons, List.count_nil]

/-- C7 witness: the happy path (unit of work and commit both succeed)
commits exactly once and never rolls back. -/
theorem withTx_exactly_one_commit_or_rollback_witness :
    (withTx (some (⟨none, .ok 3, none, none⟩ : TxOutcomes Nat))
        (.ok 0)).events.count TxEvent.commitOk
      + (withTx (some (⟨none, .ok 3, none, none⟩ : TxOutcomes Nat))
          (.ok 0)).events.count TxEvent.rollbackCalled = 1
    ∧ ((withTx (some (⟨none, .ok 3, none, none⟩ : TxOutcomes Nat))
          (.ok 0)).events.count TxEvent.commitOk = 1
        ↔ exceptIsOk (Except.ok (ε := GoErr) 3) = true
          ∧ (none : Option GoErr) = none) :=
  withTx_exactly_one_commit_or_rollback ⟨none, .ok 3, none, none⟩ (.ok 0) rfl

/-- C8 counterexample: when the unit of work fails and the rollback itself
fails with the `pgx.ErrTxClosed` sentinel, the rollback error is NOT
combined with the original error — it is discarded and the original error
alone is returned, contradicting the claim that a failing rollback's error
is always combined with the original. -/
theorem withTx_txClosed_rollback_error_discarded :
    (withTx
        (some (⟨none, .error (.msg "boom"), none, some .txClosed⟩ :
          TxOutcomes Nat))
        (.ok 0)).result = .error (.msg "boom")
    ∧ (GoErr.msg "boom").contains GoErr.txClosed = false :=
  ⟨rfl, rfl⟩

/-- C8 (amended): whenever `withTx` opened its own transaction and the
operation fails with original error `e` — either the unit of work fails
with `e`, or the unit of work succeeds and the downstream commit fails
with `e` — the transaction is rolled back (exactly one rollback call)
and: a rollback error that is not the transaction-closed sentinel is
joined onto `e` as `errors.Join(e, tx.Rollback: re)`; a rollback error
carrying the sentinel is discarded and `e` alone is returned; a
successful rollback returns `e` alone. In every case the returned error
contains the original `e` — it is never discarded or replaced. -/
theorem withTx_rollback_keeps_original_error {T : Type} (env : TxOutcomes T)
    (fnResult : Except GoErr T) (e : GoErr)
    (hbegin : env.beginResult = none)
    (hfail : env.fnTxResult = .error e
      ∨ (∃ v, env.fnTxResult = .ok v) ∧ env.commitResult = some e) :
    (withTx (some env) fnResult).events.count TxEvent.rollbackCalled = 1
    ∧ (∀ re, env.rollbackResult = some re → re.hasTxClosed = false →
        (withTx (some env) fnResult).result =
          .error (.join e (.wrap "tx.Rollback" re)))
    ∧ (∀ re, env.rollbackResult = some re → re.hasTxClosed = true →
        (withTx (some env) fnResult).result = .error e)
    ∧ (env.rollbackResult = none →
        (withTx (some env) fnResult).result = .error e)
    ∧ ∃ err, (withTx (some env) fnResult).result = .error err
        ∧ err.contains e = true := by
  obtain ⟨b, f, c, rb⟩ := env
  simp only at hbegin hfail
  subst hbegin
  have hout :
      (withTx (some ⟨none, f, c, rb⟩) fnResult).result =
        .error (rollbackOnError e rb)
      ∧ (withTx (some ⟨none, f, c, rb⟩) fnResult).events.count
          TxEvent.rollbackCalled = 1 := by
    rcases hfail with hfn | ⟨⟨v, hv⟩, hc⟩
    · subst hfn
      exact ⟨rfl, by simp [withTx, List.count_cons, List.count_nil]⟩
    · subst hv
      subst hc
      exact ⟨rfl, by simp [withTx, List.count_cons, List.count_nil]⟩
  refine ⟨hout.2, ?_, ?_, ?_, ?_⟩
  · intro re hre hclosed
    simp only at hre
    subst hre
    rw [hout.1]
    simp [rollbackOnError, hclosed]
  · intro re hre hclosed
    simp only at hre
    subst hre
    rw [hout.1]
    simp [rollbackOnError, hclosed]
  · intro hre
    simp only at hre
    subst hre
    rw [hout.1]
    simp [rollbackOnError]
  · refine ⟨rollbackOnError e rb, hout.1, ?_⟩
    cases rb with
    | none => simp [rollbackOnError, GoErr.contains_self]
    | some re =>
      by_cases hclosed : re.hasTxClosed = true
      · simp [rollbackOnError, hclosed, GoErr.contains_self]
      · simp only [Bool.not_eq_true] at hclosed
        simp [rollbackOnError, hclosed, GoErr.contains,
          GoErr.contains_self]

/-- C8 (amended) witness: the unit of work succeeds but the downstream
commit fails, and the rollback fails with a genuine (non-sentinel) error;
the result joins the two errors, keeping the original commit error. -/
theorem withTx_rollback_keeps_original_error_witness :
    (withTx
        (some (⟨none, .ok 7, some (.msg "commitfail"),
          some (.msg "rbfail")⟩ : TxOutcomes Nat))
        (.ok 0)).events.count TxEvent.rollbackCalled = 1
    ∧ (∀ re,
        (some (GoErr.msg "rbfail") : Option GoErr) = some re →
        re.hasTxClosed = false →
        (withTx
            (some (⟨none, .ok 7, some (.msg "commitfail"),
              some (.msg "rbfail")⟩ : TxOutcomes Nat))
            (.ok 0)).result =
          .error (.join (.msg "commitfail") (.wrap "tx.Rollback" re)))
    ∧ (∀ re,
        (some (GoErr.msg "rbfail") : Option GoErr) = some re →
        re.hasTxClosed = true →
        (withTx
            (some (⟨none, .ok 7, some (.msg "commitfail"),
              some (.msg "rbfail")⟩ : TxOutcomes Nat))
            (.ok 0)).result = .error (.msg "commitfail"))
    ∧ ((some (GoErr.msg "rbfail") : Option GoErr) = none →
        (withTx
            (some (⟨none, .ok 7, some (.msg "commitfail"),
              some (.msg "rbfail")⟩ : TxOutcomes Nat))
            (.ok 0)).result = .error (.msg "commitfail"))
    ∧ ∃ err,
        (withTx
            (some (⟨none, .ok 7, some (.msg "commitfail"),
              some (.msg "rbfail")⟩ : TxOutcomes Nat))
            (.ok 0)).result = .error err
        ∧ err.contains (.msg "commitfail") = true :=
  withTx_rollback_keeps_original_error
    ⟨none, .ok 7, some (.msg "commitfail"), some (.msg "rbfail")⟩
    (.ok 0) (.msg "commitfail") rfl (Or.inr ⟨⟨7, rfl⟩, rfl⟩)

/-- A row matches the key `(o, p)` exactly when its primary key is
`(o, p)`. -/
theorem rowKeyIs_eq_true_iff (o : String) (p : UUID) (r : CartRow) :
    rowKeyIs o p r = true ↔ keyOf r = (o, p) := by
  simp [rowKeyIs, keyOf, Bool.and_eq_true, beq_iff_eq, Prod.ext_iff]

/-- The upsert's update arm does not change which rows match the key. -/
theorem rowKeyIs_updRow (o : String) (p : UUID) (amt : Int) (cur : String)
    (r : CartRow) :
    rowKeyIs o p (updRow o p amt cur r) = rowKeyIs o p r := by
  unfold updRow
  split <;> rfl

/-- The upsert's update arm does not change any row's primary key. -/
theorem keyOf_updRow (o : String) (p : UUID) (amt : Int) (cur : String)
    (r : CartRow) : keyOf (updRow o p amt cur r) = keyOf r := by
  by_cases h : rowKeyIs o p r = true <;> simp [updRow, h, keyOf]

/-- In a well-formed table, the rows matching the key of a member row are
exactly that row. -/
theorem filter_key_singleton (s : List CartRow) (o : String) (p : UUID)
    (r0 : CartRow) (hwf : storeWF s) (hmem : r0 ∈ s)
    (hk : rowKeyIs o p r0 = true) :
    s.filter (rowKeyIs o p) = [r0] := by
  induction s with
  | nil => simp at hmem
  | cons head rest ih =>
    have hwfc : keyOf head ∉ rest.map keyOf ∧ storeWF rest := by
      simpa [storeWF, List.nodup_cons] using hwf
    rcases List.mem_cons.mp hmem with hhd | htl
    · subst hhd
      rw [List.filter_cons, if_pos hk]
      have hrest : rest.filter (rowKeyIs o p) = [] := by
        refine List.filter_eq_nil_iff.mpr (fun a ha hka => ?_)
        have : keyOf a = (o, p) := (rowKeyIs_eq_true_iff o p a).mp hka
        exact hwfc.1 (by
          rw [(rowKeyIs_eq_true_iff o p r0).mp hk, ← this]
          exact List.mem_map_of_mem keyOf ha)
      rw [hrest]
    · have hhead : rowKeyIs o p head = false := by
        by_contra hcon
        simp only [Bool.not_eq_false] at hcon
        exact hwfc.1 (by
          rw [(rowKeyIs_eq_true_iff o p head).mp hcon,
            ← (rowKeyIs_eq_true_iff o p r0).mp hk]
          exact List.mem_map_of_mem keyOf htl)
      rw [List.filter_cons, if_neg (by simp [hhead])]
      exact ih hwfc.2 htl

/-- Filtering the key out of the updated table is updating the filtered
rows. -/
theorem filter_map_updRow (s : List CartRow) (o : String) (p : UUID)
    (amt : Int) (cur : String) :
    (s.map (updRow o p amt cur)).filter (rowKeyIs o p) =
      (s.filter (rowKeyIs o p)).map (updRow o p amt cur) := by
  induction s with
  | nil => rfl
  | cons head rest ih =>
    by_cases hk : rowKeyIs o p head = true
    · simp [List.filter_cons, rowKeyIs_updRow, hk, ih]
    · simp only [Bool.not_eq_true] at hk
      simp [List.filter_cons, rowKeyIs_updRow, hk, ih]

/-- The upsert preserves primary-key uniqueness of the table. -/
theorem storeWF_sqlAddItem (s : List CartRow) (q : AddItemParams) (now : Nat)
    (hwf : storeWF s) : storeWF (sqlAddItem s q now) := by
  unfold sqlAddItem
  by_cases hany : s.any (rowKeyIs q.OwnerID q.ProductID) = true
  · rw [if_pos hany]
    have hkeys :
        (s.map (updRow q.OwnerID q.ProductID q.PriceAmount
          q.PriceCurrency)).map keyOf = s.map keyOf := by
      rw [List.map_map]
      exact List.map_congr_left (fun r _ => keyOf_updRow _ _ _ _ r)
    unfold storeWF
    rw [hkeys]
    exact hwf
  · rw [if_neg hany]
    simp only [Bool.not_eq_true] at hany
    have hnot : (q.OwnerID, q.ProductID) ∉ s.map keyOf := by
      intro hm
      obtain ⟨r, hr, hkr⟩ := List.mem_map.mp hm
      have : rowKeyIs q.OwnerID q.ProductID r = true :=
        (rowKeyIs_eq_true_iff _ _ r).mpr hkr
      have := List.any_eq_false.mp hany r hr
      simp_all
    have hwfm : (s.map keyOf).Nodup := hwf
    unfold storeWF
    rw [List.map_append]
    simp [List.nodup_append, hwfm, keyOf, hnot]

/-- The creation timestamp the key `(o, p)` ends up with after an upsert
issued at time `now`: the already-stored one if a row for the key exists,
else `now`. -/
def createdOf (s : List CartRow) (o : String) (p : UUID) (now : Nat) : Nat :=
  match s.filter (rowKeyIs o p) with
  | [] => now
  | r :: _ => r.created_at

/-- After an upsert into a well-formed table, the rows matching the key are
exactly one row carrying the upserted price fields and the timestamp
described by `createdOf`. -/
theorem sqlAddItem_filter_key (s : List CartRow) (o : String) (p : UUID)
    (amt : Int) (cur : String) (now : Nat) (hwf : storeWF s) :
    (sqlAddItem s ⟨o, p, amt, cur⟩ now).filter (rowKeyIs o p) =
      [⟨o, p, amt, cur, createdOf s o p now⟩] := by
  unfold sqlAddItem
  by_cases hany : s.any (rowKeyIs o p) = true
  · simp only [if_pos hany]
    obtain ⟨r0, hmem, hk⟩ := List.any_eq_true.mp hany
    have hfil := filter_key_singleton s o p r0 hwf hmem hk
    rw [filter_map_updRow, hfil]
    have hkey := (rowKeyIs_eq_true_iff o p r0).mp hk
    obtain ⟨ro, rp, ra, rc, rt⟩ := r0
    simp only [keyOf, Prod.mk.injEq] at hkey
    simp [updRow, hk, createdOf, hfil, hkey.1, hkey.2, rowKeyIs]
  · simp only [if_neg hany]
    simp only [Bool.not_eq_true] at hany
    have hfil : s.filter (rowKeyIs o p) = [] :=
      List.filter_eq_nil_iff.mpr (fun a ha => by
        simp [List.any_eq_false.mp hany a ha])
    rw [List.filter_append, hfil]
    simp [createdOf, hfil, List.filter_cons, rowKeyIs]

/-- C3: upsert semantics of `AddItem` over a well-formed table and a valid
key. If a row for `(owner, product)` exists, the upsert leaves exactly one
row for the key, carrying the new price amount and currency but the old
row's creation timestamp. If no row exists, exactly one fresh row is
appended with the new price fields and the server timestamp. Upserting the
same key twice leaves exactly one row reflecting the second price. -/
theorem addItem_upsert_last_write_wins (store : List CartRow)
    (ownerID : String) (product : UUID)
    (hwf : storeWF store) (how : ownerID ≠ "") (hp : product ≠ UUID.nil) :
    (∀ r0 ∈ store, rowKeyIs ownerID product r0 = true →
      ∀ amt : Int, ∀ cur : CurrencyUnit, ∀ cAt now : Nat,
        (cartRepository.AddItem store ownerID ⟨product, ⟨amt, cur⟩, cAt⟩
            now).store.filter (rowKeyIs ownerID product) =
          [⟨ownerID, product, amt, cur.code, r0.created_at⟩]
        ∧ (cartRepository.AddItem store ownerID ⟨product, ⟨amt, cur⟩, cAt⟩
            now).err = none)
    ∧ (store.filter (rowKeyIs ownerID product) = [] →
      ∀ amt : Int, ∀ cur : CurrencyUnit, ∀ cAt now : Nat,
        (cartRepository.AddItem store ownerID ⟨product, ⟨amt, cur⟩, cAt⟩
            now).store =
          store ++ [⟨ownerID, product, amt, cur.code, now⟩]
        ∧ (cartRepository.AddItem store ownerID ⟨product, ⟨amt, cur⟩, cAt⟩
            now).err = none)
    ∧ (∀ amt1 amt2 : Int, ∀ cur1 cur2 : CurrencyUnit,
       ∀ cAt1 cAt2 now1 now2 : Nat,
        (cartRepository.AddItem
            (cartRepository.AddItem store ownerID
              ⟨product, ⟨amt1, cur1⟩, cAt1⟩ now1).store
            ownerID ⟨product, ⟨amt2, cur2⟩, cAt2⟩ now2).store.filter
          (rowKeyIs ownerID product) =
          [⟨ownerID, product, amt2, cur2.code,
            createdOf store ownerID product now1⟩]) := by
  refine ⟨?_, ?_, ?_⟩
  · intro r0 hmem hk amt cur cAt now
    have hfil := filter_key_singleton store ownerID product r0 hwf hmem hk
    constructor
    · simp only [cartRepository.AddItem, if_neg how]
      rw [sqlAddItem_filter_key store ownerID product amt cur.code now hwf]
      simp [createdOf, hfil]
    · simp [cartRepository.AddItem, how]
  · intro hfil amt cur cAt now
    have hany : store.any (rowKeyIs ownerID product) = false := by
      rcases h : store.any (rowKeyIs ownerID product) with _ | _
      · rfl
      · obtain ⟨r, hr, hkr⟩ := List.any_eq_true.mp h
        have := List.filter_eq_nil_iff.mp hfil r hr
        simp_all
    constructor
    · simp only [cartRepository.AddItem, if_neg how]
      simp [sqlAddItem, hany]
    · simp [cartRepository.AddItem, how]
  · intro amt1 amt2 cur1 cur2 cAt1 cAt2 now1 now2
    simp only [cartRepository.AddItem, if_neg how]
    have hwf1 := storeWF_sqlAddItem store
      ⟨ownerID, product, amt1, cur1.code⟩ now1 hwf
    have hfil1 := sqlAddItem_filter_key store ownerID product amt1 cur1.code
      now1 hwf
    rw [sqlAddItem_filter_key _ ownerID product amt2 cur2.code now2 hwf1]
    simp [createdOf, hfil1]

/-- C3 witness: upserting the (alice, 1) row of `demoStore` with a new
price leaves exactly one row for the key, with the new price and the old
creation timestamp `10`. -/
theorem addItem_upsert_last_write_wins_witness :
    (cartRepository.AddItem demoStore "alice" ⟨1, ⟨99, ⟨"EUR"⟩⟩, 0⟩
        20).store.filter (rowKeyIs "alice" 1) =
      [⟨"alice", 1, 99, "EUR", 10⟩]
    ∧ (cartRepository.AddItem demoStore "alice" ⟨1, ⟨99, ⟨"EUR"⟩⟩, 0⟩
        20).err = none :=
  (addItem_upsert_last_write_wins demoStore "alice" 1 (by decide) (by decide)
      (by decide)).1
    ⟨"alice", 1, 5, "USD", 10⟩ (by decide) (by decide) 99 ⟨"EUR"⟩ 0 20
